import Mathlib

/-!
# Verification of the chat-list screen (`src/app/(tabs)/index.tsx`)

Shallow embedding of the single screen component of the repository:
the `ChatroomWithMessages` data shape, the `formatTimestamp` helper, and
the `fetchChatrooms` fetch/transform/state-update sequence.  Queries to
the backend and to the image service are modelled as `Except`-valued
inputs (a thrown error or a returned value); React state becomes an
explicit `ScreenState` record that the fetch operation maps to a new
state, together with the error (if any) that was logged.
-/

namespace ChatList

/-- The `sender` field of a last message: `{ username, avatar_url }`,
where `avatar_url : string | null` becomes `Option String`. -/
structure Sender where
  username : String
  avatar_url : Option String
deriving Repr, DecidableEq

/-- The `lastMessage` record: `{ content, created_at, sender }`. -/
structure LastMessage where
  content : String
  created_at : String
  sender : Sender
deriving Repr, DecidableEq

/-- The `ChatroomWithMessages` interface: `{ id, name, lastMessage }`
with `lastMessage` nullable. -/
structure ChatroomWithMessages where
  id : String
  name : String
  lastMessage : Option LastMessage
deriving Repr, DecidableEq

/-- One row of the membership query result after the inner join:
`item.chatroom` with fields `id` and `name`. -/
structure Chatroom where
  id : String
  name : String
deriving Repr, DecidableEq

/-- The screen's local React state touched by `fetchChatrooms`:
`loading` (`useState(true)`) and `chatrooms` (`useState([])`). -/
structure ScreenState where
  loading : Bool
  chatrooms : List ChatroomWithMessages
deriving Repr, DecidableEq

/-! ## Date parsing and formatting

`formatTimestamp` delegates to `new Date(timestamp)` and date-fns
`format(date, 'MMM d, h:mm a')`; both live outside the repository. -/

/-- A parsed calendar date-time (year, month 1–12, day, hour 0–23,
minute 0–59). -/
structure DateTime where
  year : Nat
  month : Nat
  day : Nat
  hour : Nat
  minute : Nat
deriving Repr, DecidableEq

/-- Split a character list at every occurrence of the separator `c`
(the separators are dropped; `n` separators give `n + 1` pieces). -/
def splitOnChar (c : Char) : List Char → List (List Char)
  | [] => [[]]
  | x :: xs =>
      match splitOnChar c xs with
      | [] => if x = c then [[], []] else [[x]]
      | h :: t => if x = c then [] :: h :: t else (x :: h) :: t

/-- Drop a single trailing `Z` (the UTC designator) if present. -/
def stripTrailingZ (l : List Char) : List Char :=
  match l.reverse with
  | 'Z' :: rest => rest.reverse
  | _ => l

/-- A fixed-width run of decimal digits, as in the ISO-8601 fields
`YYYY`, `MM`, `DD`, `hh`, `mm`, read as a decimal number. -/
def parseFixedNat (w : Nat) (l : List Char) : Option Nat :=
  if l.length = w ∧ l.all Char.isDigit then
    some (l.foldl (fun acc c => acc * 10 + (c.toNat - 48)) 0)
  else none

/-- Modelled from the spec: the ISO-8601 parsing performed by
`new Date(timestamp)` (the JavaScript `Date` constructor is not part of
this repository).  Accepts `YYYY-MM-DD` optionally followed by
`Thh:mm` or `Thh:mm:ss`, optionally suffixed `Z`; any other string is
an unparseable date (`Invalid Date`), reported as `none`.  Rendering in
the local timezone is abstracted as UTC. -/
def parseISO (s : String) : Option DateTime :=
  match splitOnChar 'T' s.data with
  | [d] => parseDatePart d 0 0
  | [d, t] =>
      match splitOnChar ':' (stripTrailingZ t) with
      | [hh, mm] => parseWithTime d hh mm
      | [hh, mm, ss] =>
          match parseFixedNat 2 ss with
          | some sec => if sec ≤ 59 then parseWithTime d hh mm else none
          | none => none
      | _ => none
  | _ => none
where
  /-- Parse `YYYY-MM-DD` and attach an already-parsed time of day. -/
  parseDatePart (d : List Char) (hour minute : Nat) : Option DateTime :=
    match splitOnChar '-' d with
    | [y, mo, dy] =>
        match parseFixedNat 4 y, parseFixedNat 2 mo, parseFixedNat 2 dy with
        | some yn, some mon, some dn =>
            if 1 ≤ mon ∧ mon ≤ 12 ∧ 1 ≤ dn ∧ dn ≤ 31 then
              some ⟨yn, mon, dn, hour, minute⟩
            else none
        | _, _, _ => none
    | _ => none
  /-- Parse the `hh` and `mm` fields and combine with the date. -/
  parseWithTime (d hh mm : List Char) : Option DateTime :=
    match parseFixedNat 2 hh, parseFixedNat 2 mm with
    | some h, some m =>
        if h ≤ 23 ∧ m ≤ 59 then parseDatePart d h m else none
    | _, _ => none

/-- The twelve three-letter month abbreviations used by the `MMM`
format token. -/
def monthAbbrevs : List String :=
  ["Jan", "Feb", "Mar", "Apr", "May", "Jun",
   "Jul", "Aug", "Sep", "Oct", "Nov", "Dec"]

/-- Abbreviation of month `m` (1-indexed). -/
def monthAbbrev (m : Nat) : String := (monthAbbrevs.get? (m - 1)).getD ""

/-- Twelve-hour-clock hour for the `h` format token: 0 and 12 render
as 12, otherwise the hour modulo 12. -/
def hour12 (h : Nat) : Nat := if h % 12 = 0 then 12 else h % 12

/-- The am/pm marker for the `a` format token. -/
def meridiem (h : Nat) : String := if h < 12 then "am" else "pm"

/-- Zero-padded two-digit minutes for the `mm` format token. -/
def pad2 (n : Nat) : String :=
  if n < 10 then "0" ++ toString n else toString n

/-- Modelled from the spec: date-fns `format(date, 'MMM d, h:mm a')`
(the date-fns library is not part of this repository); the spec gives
the pattern `"<Mon> <day>, <hour>:<minute> <am/pm>"`, e.g.
`"Jan 5, 3:45 pm"`. -/
def formatMMMd (dt : DateTime) : String :=
  monthAbbrev dt.month ++ " " ++ toString dt.day ++ ", " ++
    toString (hour12 dt.hour) ++ ":" ++ pad2 dt.minute ++ " " ++
    meridiem dt.hour

/-- The source's `formatTimestamp`: a falsy guard
(`if (!timestamp) return ''`) — null or empty string yield `""` — then
`format(new Date(timestamp), 'MMM d, h:mm a')` inside `try`, with the
`catch` (date-fns throws on an invalid date) returning `""`. -/
def formatTimestamp (timestamp : Option String) : String :=
  match timestamp with
  | none => ""
  | some s =>
      if s = "" then ""
      else
        match parseISO s with
        | none => ""
        | some dt => formatMMMd dt

/-! ## The fetch/transform sequence -/

/-- JavaScript array read `images[index % images.length]`.  On an empty
array, `index % 0` is `NaN` and `images[NaN]` is `undefined` (no crash),
so the lookup yields nothing; otherwise it is the ordinary in-bounds
read at `index % images.length`. -/
def jsIndexMod (images : List String) (index : Nat) : Option String :=
  if images.length = 0 then none
  else images.get? (index % images.length)

/-- The `|| null` coercion applied to the lookup: any falsy value
(`undefined` from a missing index, or an empty-string image) becomes
null; a truthy string passes through. -/
def orNull (o : Option String) : Option String :=
  match o with
  | none => none
  | some s => if s = "" then none else some s

/-- The object built for one membership row at position `index`:
chatroom `id`/`name` plus the synthesized placeholder `lastMessage`
(`'No messages yet'`, `created_at: ''`, sender `'Unknown'` with
`avatar_url: unsplashImages[index % unsplashImages.length] || null`). -/
def mkSummary (images : List String) (index : Nat) (item : Chatroom) :
    ChatroomWithMessages :=
  { id := item.id
    name := item.name
    lastMessage := some
      { content := "No messages yet"
        created_at := ""
        sender :=
          { username := "Unknown"
            avatar_url := orNull (jsIndexMod images index) } } }

/-- The call `data.map((item, index) => ...)` unrolled with an explicit
running index. -/
def transformAux (images : List String) : Nat → List Chatroom →
    List ChatroomWithMessages
  | _, [] => []
  | i, item :: rest => mkSummary images i item :: transformAux images (i + 1) rest

/-- The line `const transformedData = data?.map((item, index) => ...) || []`:
null data short-circuits to `[]`; otherwise each row is mapped with its
0-based index. -/
def transform (data : Option (List Chatroom)) (images : List String) :
    List ChatroomWithMessages :=
  match data with
  | none => []
  | some rows => transformAux images 0 rows

/-- The source's `fetchChatrooms`: the whole `try`/`catch`/`finally`
sequence.  The
membership query result and the image-service result are supplied as
`Except` values (`.error` = the promise rejected / threw).  The
membership query runs first, so on its failure the image result is
never consulted.  On success `setChatrooms(transformedData)` replaces
the list; the `catch` only logs (`console.error`) — returned as the
second component — leaving `chatrooms` untouched; the `finally` runs
`setLoading(false)` on every path. -/
def fetchChatrooms (st : ScreenState)
    (membershipRes : Except String (Option (List Chatroom)))
    (imagesRes : Except String (List String)) :
    ScreenState × Option String :=
  match membershipRes with
  | .error e => ({ st with loading := false }, some e)
  | .ok data =>
      match imagesRes with
      | .error e => ({ st with loading := false }, some e)
      | .ok images =>
          ({ loading := false, chatrooms := transform data images }, none)

/-! ## String containment (for the spec's "contains" checks) -/

/-- Whether `pat` occurs at the head of `hay`. -/
def listStartsWith : List Char → List Char → Bool
  | _, [] => true
  | [], _ :: _ => false
  | a :: as, b :: bs => a = b && listStartsWith as bs

/-- Whether `pat` occurs anywhere in `hay`. -/
def listContainsSub : List Char → List Char → Bool
  | [], pat => pat.isEmpty
  | h :: t, pat => listStartsWith (h :: t) pat || listContainsSub t pat

/-- Substring containment on strings. -/
def strContains (s pat : String) : Bool :=
  listContainsSub s.toList pat.toList

/-! ## Helper lemmas -/

lemma mem_of_getQ_some {α : Type} : ∀ (l : List α) (n : Nat) (a : α),
    l.get? n = some a → a ∈ l
  | [], n, a, h => by simp [List.get?] at h
  | x :: t, 0, a, h => by
      simp [List.get?] at h; simp [h]
  | x :: t, n + 1, a, h => by
      simp only [List.get?] at h
      exact List.mem_cons_of_mem x (mem_of_getQ_some t n a h)

lemma transformAux_length (images : List String) :
    ∀ (i : Nat) (rows : List Chatroom),
      (transformAux images i rows).length = rows.length
  | _, [] => rfl
  | i, _ :: rest => by
      simp [transformAux, transformAux_length images (i + 1) rest]

lemma transformAux_map_id_name (images : List String) :
    ∀ (i : Nat) (rows : List Chatroom),
      (transformAux images i rows).map (fun s => (s.id, s.name)) =
        rows.map (fun c => (c.id, c.name))
  | _, [] => rfl
  | i, item :: rest => by
      simp [transformAux, mkSummary, transformAux_map_id_name images (i + 1) rest]

lemma transformAux_getQ (images : List String) :
    ∀ (i k : Nat) (rows : List Chatroom),
      (transformAux images i rows).get? k =
        (rows.get? k).map (fun item => mkSummary images (i + k) item)
  | _, _, [] => by simp [transformAux]
  | i, 0, item :: rest => by simp [transformAux]
  | i, k + 1, item :: rest => by
      simp only [transformAux, List.get?]
      rw [transformAux_getQ images (i + 1) k rest]
      have h : i + 1 + k = i + (k + 1) := by omega
      rw [h]

lemma mem_transformAux {images : List String} :
    ∀ {i : Nat} {rows : List Chatroom} {s : ChatroomWithMessages},
      s ∈ transformAux images i rows →
      ∃ j item, item ∈ rows ∧ s = mkSummary images j item := by
  intro i rows
  induction rows generalizing i with
  | nil => intro s h; simp [transformAux] at h
  | cons item rest ih =>
      intro s h
      simp only [transformAux, List.mem_cons] at h
      rcases h with h | h
      · exact ⟨i, item, List.mem_cons_self _ _, h⟩
      · obtain ⟨j, it, hmem, hs⟩ := ih h
        exact ⟨j, it, List.mem_cons_of_mem _ hmem, hs⟩

lemma mem_transform {data : Option (List Chatroom)} {images : List String}
    {s : ChatroomWithMessages} (h : s ∈ transform data images) :
    ∃ j item, s = mkSummary images j item := by
  cases data with
  | none => simp [transform] at h
  | some rows =>
      obtain ⟨j, item, _, hs⟩ := mem_transformAux h
      exact ⟨j, item, hs⟩

lemma parseDatePart_fields {d : List Char} {h m : Nat} {dt : DateTime}
    (hp : parseISO.parseDatePart d h m = some dt) :
    dt.hour = h ∧ dt.minute = m ∧ 1 ≤ dt.month ∧ dt.month ≤ 12 := by
  unfold parseISO.parseDatePart at hp
  split at hp
  · split at hp
    · split at hp
      · rename_i hcond
        cases hp
        exact ⟨rfl, rfl, hcond.1, hcond.2.1⟩
      · exact Option.noConfusion hp
    · exact Option.noConfusion hp
  · exact Option.noConfusion hp

lemma parseWithTime_fields {d hh mm : List Char} {dt : DateTime}
    (hp : parseISO.parseWithTime d hh mm = some dt) :
    1 ≤ dt.month ∧ dt.month ≤ 12 := by
  unfold parseISO.parseWithTime at hp
  split at hp
  · split at hp
    · exact ⟨(parseDatePart_fields hp).2.2.1, (parseDatePart_fields hp).2.2.2⟩
    · exact Option.noConfusion hp
  · exact Option.noConfusion hp

lemma parseISO_month_bounds {s : String} {dt : DateTime}
    (hp : parseISO s = some dt) : 1 ≤ dt.month ∧ dt.month ≤ 12 := by
  unfold parseISO at hp
  split at hp
  · exact ⟨(parseDatePart_fields hp).2.2.1, (parseDatePart_fields hp).2.2.2⟩
  · split at hp
    · exact parseWithTime_fields hp
    · split at hp
      · split at hp
        · exact parseWithTime_fields hp
        · exact Option.noConfusion hp
      · exact Option.noConfusion hp
    · exact Option.noConfusion hp
  · exact Option.noConfusion hp

lemma monthAbbrev_mem {m : Nat} (h1 : 1 ≤ m) (h2 : m ≤ 12) :
    monthAbbrev m ∈ monthAbbrevs := by
  interval_cases m <;> decide

lemma hour12_bounds (h : Nat) : 1 ≤ hour12 h ∧ hour12 h ≤ 12 := by
  unfold hour12; split <;> omega

lemma meridiem_am_pm (h : Nat) : meridiem h = "am" ∨ meridiem h = "pm" := by
  unfold meridiem; split
  · exact Or.inl rfl
  · exact Or.inr rfl

/-! ## Claim theorems -/

/-- C1 (counterexample): the claim says that on a fetch failure the chat
list state becomes empty.  The code's `catch` block only logs: starting
from a state holding one previously loaded chatroom, a failing
membership query leaves the list non-empty (stale). -/
theorem C1_counterexample :
    (fetchChatrooms ⟨true, [mkSummary [] 0 ⟨"r1", "Room"⟩]⟩
        (.error "network error") (.ok [])).1.chatrooms ≠ [] := by
  decide

/-- C1 (amended): whenever the fetch sequence fails — the membership
query or the image-batch query raises an error — the error is caught
and logged, the loading flag is cleared, and the chat list state is
left holding the previously loaded list unchanged (it is not
cleared). -/
theorem C1_error_preserves_list :
    (∀ (st : ScreenState) (e : String) (ires : Except String (List String)),
        fetchChatrooms st (.error e) ires =
          ({ loading := false, chatrooms := st.chatrooms }, some e)) ∧
    ∀ (st : ScreenState) (data : Option (List Chatroom)) (e : String),
        fetchChatrooms st (.ok data) (.error e) =
          ({ loading := false, chatrooms := st.chatrooms }, some e) := by
  exact ⟨fun st e ires => rfl, fun st data e => rfl⟩

/-- C2: if the image batch is empty, every constructed `ChatroomSummary`
has `lastMessage.sender.avatar_url = none`, and the transformation is
well defined on the empty batch (JavaScript evaluates `index % 0` to
`NaN` and `images[NaN]` to `undefined`, coerced to null — no crash). -/
theorem C2_empty_batch_avatar_absent (data : Option (List Chatroom))
    (s : ChatroomWithMessages) (hs : s ∈ transform data []) :
    ∃ lm, s.lastMessage = some lm ∧ lm.sender.avatar_url = none := by
  obtain ⟨j, item, rfl⟩ := mem_transform hs
  exact ⟨_, rfl, rfl⟩

/-- C2 witness: a one-row membership list against the empty batch. -/
theorem C2_witness :
    ∃ lm, (mkSummary [] 0 ⟨"a", "A"⟩).lastMessage = some lm ∧
      lm.sender.avatar_url = none :=
  C2_empty_batch_avatar_absent (some [⟨"a", "A"⟩]) (mkSummary [] 0 ⟨"a", "A"⟩)
    (by decide)

/-- C3: for every string the modelled `Date` parser accepts, the output
of `formatTimestamp` has the shape
`"<Mon> <day>, <hour>:<minute> <am/pm>"` with a real month abbreviation,
a 12-hour-clock hour and an am/pm marker; and on the concrete input
`"2024-01-05T15:45:00Z"` the output is non-empty and contains `"Jan"`
and `"5"`. -/
theorem C3_formatTimestamp_pattern :
    (∀ (s : String) (dt : DateTime), parseISO s = some dt →
        ∃ (mon : String) (d hr minu : Nat) (ap : String),
          formatTimestamp (some s) =
            mon ++ " " ++ toString d ++ ", " ++ toString hr ++ ":" ++
              pad2 minu ++ " " ++ ap ∧
          mon ∈ monthAbbrevs ∧ 1 ≤ hr ∧ hr ≤ 12 ∧
          (ap = "am" ∨ ap = "pm")) ∧
    formatTimestamp (some "2024-01-05T15:45:00Z") ≠ "" ∧
    strContains (formatTimestamp (some "2024-01-05T15:45:00Z")) "Jan" = true ∧
    strContains (formatTimestamp (some "2024-01-05T15:45:00Z")) "5" = true := by
  refine ⟨?_, by decide, by decide, by decide⟩
  intro s dt hp
  have hs : ¬ s = "" := by
    intro hs
    subst hs
    rw [show parseISO "" = none from by decide] at hp
    exact Option.noConfusion hp
  have hfmt : formatTimestamp (some s) = formatMMMd dt := by
    simp [formatTimestamp, hs, hp]
  refine ⟨monthAbbrev dt.month, dt.day, hour12 dt.hour, dt.minute,
    meridiem dt.hour, ?_, ?_, ?_, ?_, ?_⟩
  · rw [hfmt]; rfl
  · exact monthAbbrev_mem (parseISO_month_bounds hp).1 (parseISO_month_bounds hp).2
  · exact (hour12_bounds dt.hour).1
  · exact (hour12_bounds dt.hour).2
  · exact meridiem_am_pm dt.hour

/-- C3 witness: the pattern statement applied at the concrete timestamp
`"2024-01-05T15:45:00Z"`. -/
theorem C3_witness :
    ∃ (mon : String) (d hr minu : Nat) (ap : String),
      formatTimestamp (some "2024-01-05T15:45:00Z") =
        mon ++ " " ++ toString d ++ ", " ++ toString hr ++ ":" ++
          pad2 minu ++ " " ++ ap ∧
      mon ∈ monthAbbrevs ∧ 1 ≤ hr ∧ hr ≤ 12 ∧ (ap = "am" ∨ ap = "pm") :=
  C3_formatTimestamp_pattern.1 "2024-01-05T15:45:00Z" ⟨2024, 1, 5, 15, 45⟩
    (by decide)

/-- C4 (counterexample): the claim says the summary at position `i` is
assigned avatar URL `images[i mod m]`.  With the one-element batch
`[""]` the lookup `images[0 mod 1]` is the empty string, but the code's
`|| null` coercion assigns null instead of `some ""`. -/
theorem C4_counterexample :
    ((transform (some [⟨"r1", "Room"⟩]) [""]).map
        (fun s => s.lastMessage.map (fun lm => lm.sender.avatar_url))) =
      [some none] ∧
    (([""] : List String).get? (0 % ([""] : List String).length) = some "") ∧
    (some (none : Option String) ≠ some (some "")) := by
  decide

/-- C4 (amended): for a non-empty image batch of length `m`, the
summary at 0-based position `k` is assigned `images[k mod m]` when that
string is non-empty; an empty-string image entry is coerced to null.
In particular, for `m = 2` and 5 memberships the assigned images cycle
as indices `[0, 1, 0, 1, 0]`. -/
theorem C4_cyclic_assignment :
    (∀ (rows : List Chatroom) (images : List String) (k : Nat)
        (s : ChatroomWithMessages),
        images ≠ [] →
        (transform (some rows) images).get? k = some s →
        ∃ img, images.get? (k % images.length) = some img ∧
          ∃ lm, s.lastMessage = some lm ∧
            lm.sender.avatar_url = if img = "" then none else some img) ∧
    ((transform (some [⟨"a", "A"⟩, ⟨"b", "B"⟩, ⟨"c", "C"⟩, ⟨"d", "D"⟩,
          ⟨"e", "E"⟩]) ["u0", "u1"]).map
        (fun s => s.lastMessage.map (fun lm => lm.sender.avatar_url))) =
      [some (some "u0"), some (some "u1"), some (some "u0"),
       some (some "u1"), some (some "u0")] := by
  refine ⟨?_, by decide⟩
  intro rows images k s hne hget
  simp only [transform] at hget
  rw [transformAux_getQ images 0 k rows] at hget
  cases hrow : rows.get? k with
  | none => rw [hrow] at hget; exact Option.noConfusion hget
  | some item =>
      rw [hrow] at hget
      simp only [Option.map_some'] at hget
      have hs : s = mkSummary images (0 + k) item := (Option.some.inj hget).symm
      subst hs
      have hlen : 0 < images.length := List.length_pos.mpr hne
      have hlt : k % images.length < images.length := Nat.mod_lt _ hlen
      refine ⟨images.get ⟨_, hlt⟩, List.get?_eq_get hlt, _, rfl, ?_⟩
      show orNull (jsIndexMod images (0 + k)) = _
      unfold jsIndexMod
      rw [if_neg (by omega), Nat.zero_add, List.get?_eq_get hlt]
      rfl

/-- C4 witness: the cyclic-assignment statement applied at position 2
of a five-row list with the two-image batch. -/
theorem C4_witness :
    ∃ img, (["u0", "u1"] : List String).get? (2 % (["u0", "u1"] :
        List String).length) = some img ∧
      ∃ lm, (mkSummary ["u0", "u1"] 2 ⟨"c", "C"⟩).lastMessage = some lm ∧
        lm.sender.avatar_url = if img = "" then none else some img :=
  C4_cyclic_assignment.1
    [⟨"a", "A"⟩, ⟨"b", "B"⟩, ⟨"c", "C"⟩, ⟨"d", "D"⟩, ⟨"e", "E"⟩]
    ["u0", "u1"] 2 (mkSummary ["u0", "u1"] 2 ⟨"c", "C"⟩)
    (by decide) (by decide)

/-- C5: `formatTimestamp` maps null, the empty string, and any
unparseable date string to the empty string; modelled as a total
function, it never throws (the date-fns exception on an invalid date is
swallowed by the `catch`). -/
theorem C5_falsy_and_invalid :
    formatTimestamp none = "" ∧ formatTimestamp (some "") = "" ∧
    formatTimestamp (some "not-a-date") = "" ∧
    ∀ s : String, parseISO s = none → formatTimestamp (some s) = "" := by
  refine ⟨rfl, rfl, by decide, ?_⟩
  intro s hp
  by_cases hs : s = ""
  · subst hs; rfl
  · simp [formatTimestamp, hs, hp]

/-- C5 witness: the unparseable-input statement applied at
`"not-a-date"`. -/
theorem C5_witness : formatTimestamp (some "not-a-date") = "" :=
  C5_falsy_and_invalid.2.2.2 "not-a-date" (by decide)

/-- C6: one summary per returned membership row, in backend order
(`id`/`name` projections coincide); null data yields the empty list and
loading ends. -/
theorem C6_list_shape :
    (∀ (rows : List Chatroom) (images : List String),
        (transform (some rows) images).length = rows.length ∧
        (transform (some rows) images).map (fun s => (s.id, s.name)) =
          rows.map (fun c => (c.id, c.name))) ∧
    ∀ (st : ScreenState) (images : List String),
        fetchChatrooms st (.ok none) (.ok images) =
          ({ loading := false, chatrooms := [] }, none) := by
  constructor
  · intro rows images
    exact ⟨transformAux_length images 0 rows,
           transformAux_map_id_name images 0 rows⟩
  · intro st images
    rfl

/-- C7: on every completion of the fetch sequence — success, null data,
or an error from either query — the loading flag ends up false; the
operation is total (no exception escapes). -/
theorem C7_loading_always_cleared :
    ∀ (st : ScreenState) (mres : Except String (Option (List Chatroom)))
      (ires : Except String (List String)),
      (fetchChatrooms st mres ires).1.loading = false := by
  intro st mres ires
  cases mres with
  | error e => rfl
  | ok data =>
      cases ires with
      | error e => rfl
      | ok images => rfl

/-- C8: every constructed summary carries the synthesized placeholder
last message — content `"No messages yet"`, empty `created_at`, sender
username `"Unknown"` — whatever the membership and image data. -/
theorem C8_placeholder_lastMessage (data : Option (List Chatroom))
    (images : List String) (s : ChatroomWithMessages)
    (hs : s ∈ transform data images) :
    ∃ lm, s.lastMessage = some lm ∧ lm.content = "No messages yet" ∧
      lm.created_at = "" ∧ lm.sender.username = "Unknown" := by
  obtain ⟨j, item, rfl⟩ := mem_transform hs
  exact ⟨_, rfl, rfl, rfl, rfl⟩

/-- C8 witness: the placeholder invariant at a concrete one-row fetch
with a one-image batch. -/
theorem C8_witness :
    ∃ lm, (mkSummary ["u0"] 0 ⟨"a", "A"⟩).lastMessage = some lm ∧
      lm.content = "No messages yet" ∧ lm.created_at = "" ∧
      lm.sender.username = "Unknown" :=
  C8_placeholder_lastMessage (some [⟨"a", "A"⟩]) ["u0"]
    (mkSummary ["u0"] 0 ⟨"a", "A"⟩) (by decide)

/-- C9: the avatar of every constructed summary is never the empty
string: it is either null or a non-empty string drawn from the image
batch, because the `|| null` coercion sends every falsy lookup (missing
index or empty-string image) to null. -/
theorem C9_avatar_null_or_truthy (data : Option (List Chatroom))
    (images : List String) (s : ChatroomWithMessages) (lm : LastMessage)
    (hs : s ∈ transform data images) (hlm : s.lastMessage = some lm) :
    lm.sender.avatar_url = none ∨
      ∃ u, lm.sender.avatar_url = some u ∧ u ≠ "" ∧ u ∈ images := by
  obtain ⟨j, item, rfl⟩ := mem_transform hs
  have h := Option.some.inj hlm
  subst h
  show orNull (jsIndexMod images j) = none ∨
    ∃ u, orNull (jsIndexMod images j) = some u ∧ u ≠ "" ∧ u ∈ images
  by_cases hz : images.length = 0
  · left
    unfold jsIndexMod
    rw [if_pos hz]
    rfl
  · have hlt : j % images.length < images.length :=
      Nat.mod_lt _ (Nat.pos_of_ne_zero hz)
    unfold jsIndexMod
    rw [if_neg hz, List.get?_eq_get hlt]
    set u := images.get ⟨j % images.length, hlt⟩ with hu
    show orNull (some u) = none ∨ _
    by_cases hue : u = ""
    · left
      simp [orNull, hue]
    · right
      exact ⟨u, by simp [orNull, hue], hue, List.get_mem images _ _⟩

/-- C9 witness: a concrete one-row fetch with the one-image batch
`["u0"]` yields a truthy avatar drawn from the batch. -/
theorem C9_witness :
    (LastMessage.mk "No messages yet" ""
        ⟨"Unknown", some "u0"⟩).sender.avatar_url = none ∨
      ∃ u, (LastMessage.mk "No messages yet" ""
          ⟨"Unknown", some "u0"⟩).sender.avatar_url = some u ∧
        u ≠ "" ∧ u ∈ (["u0"] : List String) :=
  C9_avatar_null_or_truthy (some [⟨"a", "A"⟩]) ["u0"]
    (mkSummary ["u0"] 0 ⟨"a", "A"⟩)
    (LastMessage.mk "No messages yet" "" ⟨"Unknown", some "u0"⟩)
    (by decide) (by decide)

/-- C10: for every constructed summary the rendered timestamp is empty:
`formatTimestamp` applied to the synthesized `created_at` (always `""`)
returns `""`. -/
theorem C10_rendered_timestamp_empty (data : Option (List Chatroom))
    (images : List String) (s : ChatroomWithMessages) (lm : LastMessage)
    (hs : s ∈ transform data images) (hlm : s.lastMessage = some lm) :
    formatTimestamp (some lm.created_at) = "" := by
  obtain ⟨j, item, rfl⟩ := mem_transform hs
  have h := Option.some.inj hlm
  subst h
  rfl

/-- C10 witness: the empty rendered timestamp at a concrete one-row
fetch. -/
theorem C10_witness :
    formatTimestamp (some (LastMessage.mk "No messages yet" ""
      ⟨"Unknown", some "u0"⟩).created_at) = "" :=
  C10_rendered_timestamp_empty (some [⟨"a", "A"⟩]) ["u0"]
    (mkSummary ["u0"] 0 ⟨"a", "A"⟩)
    (LastMessage.mk "No messages yet" "" ⟨"Unknown", some "u0"⟩)
    (by decide) (by decide)

end ChatList
